import Mathlib

/-! Shallow embedding of the telemetry device framework of
`esrally/mechanic/telemetry.py` (module `rally.telemetry`), with proofs about
the registry's enablement and dispatch logic, the environment-variable merge
algorithm, and the statistics devices.

Python dictionaries are modelled as insertion-ordered association lists:
`alistLookup` finds the first binding, `alistSet` overwrites in place and
appends fresh keys at the end, exactly as CPython dicts behave. Calls to
external collaborators (the metrics store, `sysstats`, the filesystem,
`subprocess`, the logger) are modelled as an explicit event trace of type
`Ev`, listed in program order. -/

/-- JSON-like values returned by the Elasticsearch client: nested string-keyed
mappings with string and integer leaves. -/
inductive JVal where
  | str (s : String)
  | num (n : Int)
  | obj (fields : List (String × JVal))

/-- The two scopes of `metrics.MetaInfoScope` used by this module. -/
inductive MetaInfoScope where
  | cluster
  | node
deriving DecidableEq

/-- One call to an external collaborator, recorded in program order: the five
metrics-store entry points, a logged warning, and the system calls the claims
talk about (counter reads, size computation, process signalling, log handle
release). -/
inductive Ev where
  | putValueClusterLevel (name : String) (value : JVal) (unit : String)
  | putCountClusterLevel (name : String) (value : JVal) (unit : Option String)
  | putValueNodeLevel (node_name : String) (name : String) (value : JVal) (unit : String)
  | putCountNodeLevel (node_name : String) (name : String) (value : JVal) (unit : String)
  | addMetaInfo (scope : MetaInfoScope) (node_name : Option String) (key : String) (value : JVal)
  | warn (msg : String)
  | readDiskIoCounters
  | readProcessIoCounters
  | fsGetSize (path : String)
  | runSubprocess (cmd : String)
  | killSigint (pid : Int)
  | waitProcess (pid : Int)
  | closeLog

/-- First binding of key `k` (Python `d[k]`; `k in d` is `(alistLookup d k).isSome`). -/
def alistLookup {α : Type} : List (String × α) → String → Option α
  | [], _ => none
  | p :: rest, k => if p.1 = k then some p.2 else alistLookup rest k

/-- Python `d[k] = v`: overwrite an existing binding in place, append a fresh
key at the end. -/
def alistSet {α : Type} : List (String × α) → String → α → List (String × α)
  | [], k, v => [(k, v)]
  | p :: rest, k, v => if p.1 = k then (k, v) :: rest else p :: alistSet rest k v

/-- The benchmark-target descriptor (`car.Car`): only its name is read here. -/
structure Car where
  name : String

/-- A telemetry device as the registry sees it: the identification contract
plus the environment-instrumentation hook (the lifecycle hooks are dispatched
by the registry and traced there). `instrument_env` is the device's
`instrument_env(car, candidate_id)` result. -/
structure Device where
  internal : Bool
  command : String
  instrument_env : Car → String → List (String × String)

/-- The telemetry registry (`Telemetry.__init__`): the ordered device list and
the configured `telemetry.devices` option. -/
structure Telemetry where
  devices : List Device
  enabled_devices : List String

/-- `Telemetry._enabled`: `device.internal or device.command in self.enabled_devices`. -/
def Telemetry._enabled (t : Telemetry) (device : Device) : Bool :=
  device.internal || t.enabled_devices.contains device.command

/-- The inner merge loop of `Telemetry.instrument_candidate_env`: for each
`(k, v)` of one device's `additional_opts`, concatenate onto an existing
binding with a single space, store fresh keys directly. -/
def mergeEnvOpts (opts : List (String × String)) (additional_opts : List (String × String)) :
    List (String × String) :=
  additional_opts.foldl (fun acc kv =>
    match alistLookup acc kv.1 with
    | some v0 => alistSet acc kv.1 (v0 ++ " " ++ kv.2)
    | none => alistSet acc kv.1 kv.2) opts

/-- `Telemetry.instrument_candidate_env`: fold the enabled devices' `instrument_env`
results into one accumulator, starting from the empty dict. -/
def Telemetry.instrument_candidate_env (t : Telemetry) (car : Car) (candidate_id : String) :
    List (String × String) :=
  t.devices.foldl (fun opts device =>
    if t._enabled device then mergeEnvOpts opts (device.instrument_env car candidate_id)
    else opts) []

/-- Statement helper: all values contributed for key `k` by the enabled
devices, in device iteration order. -/
def envContributions (t : Telemetry) (car : Car) (candidate_id : String) (k : String) :
    List String :=
  ((t.devices.filter (fun d => t._enabled d)).flatMap
      (fun d => d.instrument_env car candidate_id)).filterMap
    (fun kv => if kv.1 = k then some kv.2 else none)

/-- Statement helper: `none` for no contribution, otherwise the contributions
joined with a single separating space. -/
def spaceConcat : List String → Option String
  | [] => none
  | v :: rest => some (rest.foldl (fun a b => a ++ " " ++ b) v)

/-- Fan-out loop shared by the six lifecycle dispatchers of `Telemetry`
(`attach_to_cluster`, `attach_to_node`, `detach_from_node`, `on_benchmark_start`,
`on_benchmark_stop`, `detach_from_cluster`): the devices whose hook is invoked,
in registration order. -/
def Telemetry.fanOutLoop (t : Telemetry) : List Device :=
  t.devices.foldl (fun acc device => if t._enabled device then acc ++ [device] else acc) []

/-- `Telemetry.attach_to_cluster`: the devices whose hook runs, in order. -/
def Telemetry.attach_to_cluster (t : Telemetry) : List Device := t.fanOutLoop

/-- `Telemetry.attach_to_node`: the devices whose hook runs, in order. -/
def Telemetry.attach_to_node (t : Telemetry) : List Device := t.fanOutLoop

/-- `Telemetry.detach_from_node`: the devices whose hook runs, in order. -/
def Telemetry.detach_from_node (t : Telemetry) : List Device := t.fanOutLoop

/-- `Telemetry.on_benchmark_start`: the devices whose hook runs, in order. -/
def Telemetry.on_benchmark_start (t : Telemetry) : List Device := t.fanOutLoop

/-- `Telemetry.on_benchmark_stop`: the devices whose hook runs, in order. -/
def Telemetry.on_benchmark_stop (t : Telemetry) : List Device := t.fanOutLoop

/-- `Telemetry.detach_from_cluster`: the devices whose hook runs, in order. -/
def Telemetry.detach_from_cluster (t : Telemetry) : List Device := t.fanOutLoop

/-! Lemmas about association lists and the merge loop. -/

theorem alistLookup_alistSet_self {α : Type} (l : List (String × α)) (k : String) (v : α) :
    alistLookup (alistSet l k v) k = some v := by
  induction l with
  | nil => simp [alistSet, alistLookup]
  | cons p rest ih =>
    by_cases h : p.1 = k
    · simp [alistSet, h, alistLookup]
    · simp [alistSet, h, alistLookup, ih]

theorem alistLookup_alistSet_ne {α : Type} (l : List (String × α)) (k k' : String) (v : α)
    (h : k ≠ k') : alistLookup (alistSet l k v) k' = alistLookup l k' := by
  induction l with
  | nil => simp [alistSet, alistLookup, h]
  | cons p rest ih =>
    by_cases hp : p.1 = k
    · subst hp
      simp [alistSet, alistLookup, h]
    · by_cases hp' : p.1 = k'
      · simp [alistSet, hp, alistLookup, hp', Ne.symm h]
      · simp [alistSet, hp, alistLookup, hp', Ne.symm h, ih]

/-- One merge step for a single `(k, v)` pair, seen through `alistLookup`. -/
def optSpaceAppend (o : Option String) (v : String) : Option String :=
  match o with
  | none => some v
  | some s => some (s ++ " " ++ v)

theorem lookup_mergeEnvOpts (adds opts : List (String × String)) (k : String) :
    alistLookup (mergeEnvOpts opts adds) k
      = (adds.filterMap (fun kv => if kv.1 = k then some kv.2 else none)).foldl
          optSpaceAppend (alistLookup opts k) := by
  induction adds generalizing opts with
  | nil => rfl
  | cons kv rest ih =>
    have hstep : mergeEnvOpts opts (kv :: rest)
        = mergeEnvOpts (match alistLookup opts kv.1 with
            | some v0 => alistSet opts kv.1 (v0 ++ " " ++ kv.2)
            | none => alistSet opts kv.1 kv.2) rest := rfl
    rw [hstep, ih]
    by_cases hk : kv.1 = k
    · subst hk
      cases hlook : alistLookup opts kv.1 with
      | none =>
        simp [hlook, alistLookup_alistSet_self, optSpaceAppend]
      | some v0 =>
        simp [hlook, alistLookup_alistSet_self, optSpaceAppend]
    · cases hlook : alistLookup opts kv.1 with
      | none =>
        simp [hk, hlook, alistLookup_alistSet_ne _ _ _ _ hk]
      | some v0 =>
        simp [hk, hlook, alistLookup_alistSet_ne _ _ _ _ hk]

theorem foldl_optSpaceAppend_some (vs : List String) (s : String) :
    vs.foldl optSpaceAppend (some s) = some (vs.foldl (fun a b => a ++ " " ++ b) s) := by
  induction vs generalizing s with
  | nil => rfl
  | cons v rest ih => simp [List.foldl, optSpaceAppend, ih]

theorem foldl_optSpaceAppend_none (vs : List String) :
    vs.foldl optSpaceAppend none = spaceConcat vs := by
  cases vs with
  | nil => rfl
  | cons v rest => simp [List.foldl, optSpaceAppend, spaceConcat, foldl_optSpaceAppend_some]

theorem mergeEnvOpts_append (opts l1 l2 : List (String × String)) :
    mergeEnvOpts opts (l1 ++ l2) = mergeEnvOpts (mergeEnvOpts opts l1) l2 := by
  simp [mergeEnvOpts, List.foldl_append]

theorem instrument_foldl_eq (t : Telemetry) (car : Car) (candidate_id : String)
    (ds : List Device) (opts : List (String × String)) :
    ds.foldl (fun opts device =>
        if t._enabled device then mergeEnvOpts opts (device.instrument_env car candidate_id)
        else opts) opts
      = mergeEnvOpts opts
          ((ds.filter (fun d => t._enabled d)).flatMap
            (fun d => d.instrument_env car candidate_id)) := by
  induction ds generalizing opts with
  | nil => rfl
  | cons d rest ih =>
    by_cases hd : t._enabled d
    · simp only [List.foldl_cons, hd, if_pos, List.filter_cons_of_pos hd,
        List.flatMap_cons, mergeEnvOpts_append]
      exact ih _
    · simp only [List.foldl_cons, hd, if_neg, List.filter_cons_of_neg hd, Bool.false_eq_true,
        not_false_iff]
      simpa using ih opts

/-- C1. `instrument_candidate_env` merges the per-device environment mappings
so that, for every key, the result binds the key to the values contributed by
the enabled devices in device iteration order, joined by a single separating
space; a key nobody contributes is absent, a key contributed once maps to that
single value. -/
theorem C1_instrument_candidate_env_merges (t : Telemetry) (car : Car)
    (candidate_id : String) (k : String) :
    alistLookup (t.instrument_candidate_env car candidate_id) k
      = spaceConcat (envContributions t car candidate_id k) := by
  unfold Telemetry.instrument_candidate_env envContributions
  rw [instrument_foldl_eq, lookup_mergeEnvOpts]
  simp [alistLookup, foldl_optSpaceAppend_none]

/-- C1 example from the spec: devices contributing `X=A`, `X=B`, `Y=C` in that
order yield `X = "A B"` and `Y = "C"`. -/
theorem C1_spec_example :
    let d1 : Device := ⟨true, "internal", fun _ _ => [("X", "A")]⟩
    let d2 : Device := ⟨true, "internal", fun _ _ => [("X", "B")]⟩
    let d3 : Device := ⟨true, "internal", fun _ _ => [("Y", "C")]⟩
    let t : Telemetry := ⟨[d1, d2, d3], []⟩
    t.instrument_candidate_env ⟨"default-car"⟩ "default-node" = [("X", "A B"), ("Y", "C")] := by
  rfl

theorem fanout_foldl_eq (t : Telemetry) (ds : List Device) (acc : List Device) :
    ds.foldl (fun acc device => if t._enabled device then acc ++ [device] else acc) acc
      = acc ++ ds.filter (fun d => t._enabled d) := by
  induction ds generalizing acc with
  | nil => simp
  | cons d rest ih =>
    by_cases hd : t._enabled d
    · simp [List.foldl_cons, hd, List.filter_cons_of_pos hd, ih]
    · simp [List.foldl_cons, hd, List.filter_cons_of_neg hd, ih]

/-- C2. The registry treats a device as enabled iff it is internal or its
command id is in the configured enabled set; a device marked internal is
enabled whatever the configuration holds; and every lifecycle fan-out
(`attach_to_cluster`, `attach_to_node`, `detach_from_node`,
`on_benchmark_start`, `on_benchmark_stop`, `detach_from_cluster`) invokes
exactly the enabled devices, in registration order. -/
theorem C2_enabled_and_lifecycle_fanout (t : Telemetry) (device : Device) :
    (t._enabled device = true ↔ device.internal = true ∨ device.command ∈ t.enabled_devices)
    ∧ t._enabled { device with internal := true } = true
    ∧ t.attach_to_cluster = t.devices.filter (fun d => t._enabled d)
    ∧ t.attach_to_node = t.devices.filter (fun d => t._enabled d)
    ∧ t.detach_from_node = t.devices.filter (fun d => t._enabled d)
    ∧ t.on_benchmark_start = t.devices.filter (fun d => t._enabled d)
    ∧ t.on_benchmark_stop = t.devices.filter (fun d => t._enabled d)
    ∧ t.detach_from_cluster = t.devices.filter (fun d => t._enabled d) := by
  refine ⟨?_, ?_, ?_, ?_, ?_, ?_, ?_, ?_⟩
  · constructor
    · intro h
      rcases Bool.or_eq_true_iff.mp h with h1 | h2
      · exact Or.inl h1
      · exact Or.inr (List.elem_iff.mp h2)
    · intro h
      rcases h with h1 | h2
      · exact Bool.or_eq_true_iff.mpr (Or.inl h1)
      · exact Bool.or_eq_true_iff.mpr (Or.inr (List.elem_iff.mpr h2))
  · simp [Telemetry._enabled]
  all_goals
    simpa [Telemetry.attach_to_cluster, Telemetry.attach_to_node, Telemetry.detach_from_node,
      Telemetry.on_benchmark_start, Telemetry.on_benchmark_stop, Telemetry.detach_from_cluster,
      Telemetry.fanOutLoop] using fanout_foldl_eq t t.devices []

/-! MergeParts: the log-aggregation device. -/

/-- One line of a candidate log file after `MergeParts.MERGE_TIME_LINE.search`:
`none` when the pattern does not match, otherwise the three captured groups
`(duration_ms, part, num_docs)`. The regular-expression engine is an external
collaborator; the device consumes only the captures. -/
abbrev LogLine := Option (Nat × String × Nat)

/-- Python `k.replace(" ", "_")` for the single-character pattern used here. -/
def underscoreSpaces (s : String) : String :=
  String.mk (s.data.map (fun c => if c = ' ' then '_' else c))

/-- The loop body of `MergeParts._extract_merge_times` for one line: a fresh
category is initialised with `[0, 0]` and then the captures are added; both
branches are folded into one `alistSet` each. -/
def mergeStep (merge_times : List (String × Nat × Nat)) (line : LogLine) :
    List (String × Nat × Nat) :=
  match line with
  | none => merge_times
  | some (duration_ms, part, num_docs) =>
    match alistLookup merge_times part with
    | some l => alistSet merge_times part (l.1 + duration_ms, l.2 + num_docs)
    | none => alistSet merge_times part (duration_ms, num_docs)

/-- `MergeParts._extract_merge_times`: per-category accumulation of
`(summed duration, summed docs)` over the matching lines of one file, keyed by
category label in first-appearance order. -/
def MergeParts.extract_merge_times (file : List LogLine) : List (String × Nat × Nat) :=
  file.foldl mergeStep []

/-- `MergeParts._store_merge_times`: one cluster-level value observation and
one cluster-level count observation per accumulated category, in dict order. -/
def MergeParts.store_merge_times (merge_times : List (String × Nat × Nat)) : List Ev :=
  merge_times.foldl (fun evs kv =>
    evs ++ [Ev.putValueClusterLevel ("merge_parts_total_time_" ++ underscoreSpaces kv.1)
              (JVal.num kv.2.1) "ms",
            Ev.putCountClusterLevel ("merge_parts_total_docs_" ++ underscoreSpaces kv.1)
              (JVal.num kv.2.2) none]) []

/-- `MergeParts.on_benchmark_stop`: scan every file of the candidate log
directory in order; for each file, extract its merge times and, when that file
had at least one match, store them right away (before the next file is read). -/
def MergeParts.on_benchmark_stop (server_log_dir : List (List LogLine)) : List Ev :=
  server_log_dir.foldl (fun evs file =>
    let merge_times := MergeParts.extract_merge_times file
    if merge_times.isEmpty then evs
    else evs ++ MergeParts.store_merge_times merge_times) []

/-- Statement helper: the `(duration, docs)` captures of the matching lines of
one file that carry category `part`, in line order. -/
def mergeMatches (file : List LogLine) (part : String) : List (Nat × Nat) :=
  file.filterMap (fun line =>
    match line with
    | none => none
    | some g => if g.2.1 = part then some (g.1, g.2.2) else none)

/-- Statement helper: the value observations named `name` in a trace. -/
def valueObsNamed (name : String) (evs : List Ev) : List Ev :=
  evs.filter (fun e =>
    match e with
    | Ev.putValueClusterLevel n _ _ => n == name
    | _ => false)

/-- Two log files, each with one matching `doc values` line. -/
def c3Directory : List (List LogLine) :=
  [[some (100, "doc values", 500)], [some (250, "doc values", 1350)]]

/-! Lemmas for MergeParts. -/

theorem mergeMatches_cons_none (rest : List LogLine) (part : String) :
    mergeMatches (none :: rest) part = mergeMatches rest part := rfl

theorem mergeMatches_cons_some (d : Nat) (p : String) (n : Nat) (rest : List LogLine)
    (part : String) :
    mergeMatches (some (d, p, n) :: rest) part
      = if p = part then (d, n) :: mergeMatches rest part else mergeMatches rest part := by
  by_cases hp : p = part <;> simp [mergeMatches, hp]

/-- One matched line folded onto the running `(time, docs)` pair of a category. -/
def addMatch (o : Option (Nat × Nat)) (m : Nat × Nat) : Option (Nat × Nat) :=
  match o with
  | none => some m
  | some l => some (l.1 + m.1, l.2 + m.2)

theorem extract_fold_lookup (file : List LogLine) (acc : List (String × Nat × Nat))
    (part : String) :
    alistLookup (file.foldl mergeStep acc) part
      = (mergeMatches file part).foldl addMatch (alistLookup acc part) := by
  induction file generalizing acc with
  | nil => rfl
  | cons line rest ih =>
    cases line with
    | none =>
      rw [List.foldl_cons, mergeMatches_cons_none]
      exact ih acc
    | some g =>
      obtain ⟨duration_ms, p, num_docs⟩ := g
      rw [List.foldl_cons, mergeMatches_cons_some]
      by_cases hp : p = part
      · subst hp
        cases hlook : alistLookup acc p with
        | none =>
          have hstep : mergeStep acc (some (duration_ms, p, num_docs))
              = alistSet acc p (duration_ms, num_docs) := by
            simp [mergeStep, hlook]
          rw [hstep, ih, if_pos rfl]
          rw [alistLookup_alistSet_self]
          simp [List.foldl_cons, hlook, addMatch]
        | some l =>
          have hstep : mergeStep acc (some (duration_ms, p, num_docs))
              = alistSet acc p (l.1 + duration_ms, l.2 + num_docs) := by
            simp [mergeStep, hlook]
          rw [hstep, ih, if_pos rfl]
          rw [alistLookup_alistSet_self]
          simp [List.foldl_cons, hlook, addMatch]
      · have hlset : ∀ v, alistLookup (alistSet acc p v) part = alistLookup acc part :=
          fun v => alistLookup_alistSet_ne acc p part v hp
        rw [if_neg hp]
        cases hlook : alistLookup acc p with
        | none =>
          have hstep : mergeStep acc (some (duration_ms, p, num_docs))
              = alistSet acc p (duration_ms, num_docs) := by
            simp [mergeStep, hlook]
          rw [hstep, ih, hlset]
        | some l =>
          have hstep : mergeStep acc (some (duration_ms, p, num_docs))
              = alistSet acc p (l.1 + duration_ms, l.2 + num_docs) := by
            simp [mergeStep, hlook]
          rw [hstep, ih, hlset]

theorem foldl_addMatch_some (ms : List (Nat × Nat)) (l : Nat × Nat) :
    ms.foldl addMatch (some l)
      = some (l.1 + (ms.map Prod.fst).sum, l.2 + (ms.map Prod.snd).sum) := by
  induction ms generalizing l with
  | nil => simp
  | cons m rest ih =>
    simp only [List.foldl_cons, addMatch, ih, List.map_cons, List.sum_cons]
    simp [Nat.add_assoc]

theorem extract_lookup (file : List LogLine) (part : String)
    (h : mergeMatches file part ≠ []) :
    alistLookup (MergeParts.extract_merge_times file) part
      = some (((mergeMatches file part).map Prod.fst).sum,
              ((mergeMatches file part).map Prod.snd).sum) := by
  unfold MergeParts.extract_merge_times
  rw [extract_fold_lookup]
  cases hms : mergeMatches file part with
  | nil => exact absurd hms h
  | cons m rest =>
    rw [List.foldl_cons]
    show List.foldl addMatch (addMatch none m) rest = _
    rw [show addMatch none m = some m from rfl, foldl_addMatch_some]
    simp

theorem alistLookup_mem {α : Type} (l : List (String × α)) (k : String) (v : α)
    (h : alistLookup l k = some v) : (k, v) ∈ l := by
  induction l with
  | nil => simp [alistLookup] at h
  | cons p rest ih =>
    by_cases hp : p.1 = k
    · simp only [alistLookup, if_pos hp] at h
      obtain ⟨p1, p2⟩ := p
      simp only at hp
      subst hp
      cases h
      exact List.Mem.head _
    · simp only [alistLookup, if_neg hp] at h
      exact List.Mem.tail _ (ih h)

theorem foldl_append_eq_flatMap {β γ : Type} (g : β → List γ) (l : List β) (acc : List γ) :
    l.foldl (fun a x => a ++ g x) acc = acc ++ l.flatMap g := by
  induction l generalizing acc with
  | nil => simp
  | cons x rest ih => simp [List.foldl_cons, ih]

theorem store_merge_times_eq (merge_times : List (String × Nat × Nat)) :
    MergeParts.store_merge_times merge_times
      = merge_times.flatMap (fun kv =>
          [Ev.putValueClusterLevel ("merge_parts_total_time_" ++ underscoreSpaces kv.1)
              (JVal.num kv.2.1) "ms",
           Ev.putCountClusterLevel ("merge_parts_total_docs_" ++ underscoreSpaces kv.1)
              (JVal.num kv.2.2) none]) := by
  unfold MergeParts.store_merge_times
  exact foldl_append_eq_flatMap _ merge_times []

theorem on_benchmark_stop_eq (server_log_dir : List (List LogLine)) :
    MergeParts.on_benchmark_stop server_log_dir
      = server_log_dir.flatMap (fun file =>
          if (MergeParts.extract_merge_times file).isEmpty then []
          else MergeParts.store_merge_times (MergeParts.extract_merge_times file)) := by
  unfold MergeParts.on_benchmark_stop
  have hf : (fun (evs : List Ev) (file : List LogLine) =>
        let merge_times := MergeParts.extract_merge_times file
        if merge_times.isEmpty then evs else evs ++ MergeParts.store_merge_times merge_times)
      = fun evs file => evs ++
          (if (MergeParts.extract_merge_times file).isEmpty then []
           else MergeParts.store_merge_times (MergeParts.extract_merge_times file)) := by
    funext evs file
    by_cases h : (MergeParts.extract_merge_times file).isEmpty <;> simp [h]
  rw [hf]
  exact foldl_append_eq_flatMap _ server_log_dir []

theorem foldl_mergeStep_all_none (file : List LogLine) (acc : List (String × Nat × Nat))
    (h : ∀ line ∈ file, line = none) : file.foldl mergeStep acc = acc := by
  induction file generalizing acc with
  | nil => rfl
  | cons line rest ih =>
    have hline : line = none := h line (List.Mem.head _)
    subst hline
    rw [List.foldl_cons]
    exact ih acc (fun l hl => h l (List.Mem.tail _ hl))

/-- C3 counterexample. With two files each containing one matching
`doc values` line, the device reports two value observations named
`merge_parts_total_time_doc_values` (one per file, 100 and 250), and never the
claimed single observation with the cross-file sum 350. -/
theorem C3_counterexample_two_files :
    valueObsNamed "merge_parts_total_time_doc_values" (MergeParts.on_benchmark_stop c3Directory)
      = [Ev.putValueClusterLevel "merge_parts_total_time_doc_values" (JVal.num 100) "ms",
         Ev.putValueClusterLevel "merge_parts_total_time_doc_values" (JVal.num 250) "ms"]
    ∧ Ev.putValueClusterLevel "merge_parts_total_time_doc_values" (JVal.num 350) "ms"
        ∉ MergeParts.on_benchmark_stop c3Directory := by
  constructor
  · rfl
  · intro h
    have hev : MergeParts.on_benchmark_stop c3Directory
        = [Ev.putValueClusterLevel "merge_parts_total_time_doc_values" (JVal.num 100) "ms",
           Ev.putCountClusterLevel "merge_parts_total_docs_doc_values" (JVal.num 500) none,
           Ev.putValueClusterLevel "merge_parts_total_time_doc_values" (JVal.num 250) "ms",
           Ev.putCountClusterLevel "merge_parts_total_docs_doc_values" (JVal.num 1350) none] := by
      rfl
    rw [hev] at h
    simp at h

/-- C3 as amended. Aggregation is per file, not across the directory: for every
file of the log directory and every category with at least one matching line in
that file, the trace holds a cluster-level value observation
`merge_parts_total_time_<category with spaces underscored>` (unit ms) summing
that file's matched times, and a cluster-level count observation
`merge_parts_total_docs_<category>` summing that file's matched doc counts, so
a category appearing in several files is reported once per file; and a
directory whose files contain zero matching lines produces zero observations. -/
theorem C3_merge_parts_per_file_aggregation (server_log_dir : List (List LogLine)) :
    (∀ file ∈ server_log_dir, ∀ part : String, mergeMatches file part ≠ [] →
        Ev.putValueClusterLevel ("merge_parts_total_time_" ++ underscoreSpaces part)
            (JVal.num (((mergeMatches file part).map Prod.fst).sum)) "ms"
          ∈ MergeParts.on_benchmark_stop server_log_dir
        ∧ Ev.putCountClusterLevel ("merge_parts_total_docs_" ++ underscoreSpaces part)
            (JVal.num (((mergeMatches file part).map Prod.snd).sum)) none
          ∈ MergeParts.on_benchmark_stop server_log_dir)
    ∧ ((∀ file ∈ server_log_dir, ∀ line ∈ file, line = none) →
        MergeParts.on_benchmark_stop server_log_dir = []) := by
  constructor
  · intro file hfile part hmatch
    have hlook := extract_lookup file part hmatch
    have hmem : (part, ((mergeMatches file part).map Prod.fst).sum,
        ((mergeMatches file part).map Prod.snd).sum) ∈ MergeParts.extract_merge_times file :=
      alistLookup_mem _ _ _ hlook
    have hne : (MergeParts.extract_merge_times file).isEmpty = false := by
      cases hext : MergeParts.extract_merge_times file with
      | nil => rw [hext] at hmem; cases hmem
      | cons a b => rfl
    have hsub : ∀ e ∈ MergeParts.store_merge_times (MergeParts.extract_merge_times file),
        e ∈ MergeParts.on_benchmark_stop server_log_dir := by
      intro e he
      rw [on_benchmark_stop_eq]
      refine List.mem_flatMap.mpr ⟨file, hfile, ?_⟩
      rw [hne]
      simpa using he
    constructor
    · apply hsub
      rw [store_merge_times_eq]
      exact List.mem_flatMap.mpr ⟨_, hmem, List.Mem.head _⟩
    · apply hsub
      rw [store_merge_times_eq]
      exact List.mem_flatMap.mpr ⟨_, hmem, List.Mem.tail _ (List.Mem.head _)⟩
  · intro hnone
    rw [on_benchmark_stop_eq]
    apply List.flatMap_eq_nil_iff.mpr
    intro file hfile
    have hext : MergeParts.extract_merge_times file = [] :=
      foldl_mergeStep_all_none file [] (hnone file hfile)
    rw [hext]
    rfl

/-! NodeStats: the GC-time diff device. -/

/-- A GC-times snapshot (the result of `NodeStats.gc_times()`): node name to
`(young, old)` cumulative collection time in milliseconds, in response
iteration order. -/
abbrev GcTimes := List (String × Int × Int)

/-- The literal warning `NodeStats.on_benchmark_stop` logs for a node missing
from the start snapshot (the source passes no argument for the `%s`). -/
def gcMissingNodeWarning : String :=
  "Cannot determine GC times for node [%s]. It was not part of the cluster at the start of the benchmark."

/-- The loop body of `NodeStats.on_benchmark_stop` for one node of the end
snapshot: the accumulator is `(events so far, total young, total old)`. -/
def gcStep (gc_times_per_node : GcTimes) (acc : List Ev × Int × Int)
    (p : String × Int × Int) : List Ev × Int × Int :=
  match alistLookup gc_times_per_node p.1 with
  | some gc_times_start =>
    let young_gc_time := p.2.1 - gc_times_start.1
    let old_gc_time := p.2.2 - gc_times_start.2
    (acc.1 ++ [Ev.putValueNodeLevel p.1 "node_young_gen_gc_time" (JVal.num young_gc_time) "ms",
               Ev.putValueNodeLevel p.1 "node_old_gen_gc_time" (JVal.num old_gc_time) "ms"],
     acc.2.1 + young_gc_time, acc.2.2 + old_gc_time)
  | none => (acc.1 ++ [Ev.warn gcMissingNodeWarning], acc.2)

/-- `NodeStats.on_benchmark_stop`, given the start snapshot held in
`self.gc_times_per_node` and the freshly queried end snapshot: the event trace
and the value `self.gc_times_per_node` is left with (the source sets it to
`None`). -/
def NodeStats.on_benchmark_stop (gc_times_per_node gc_times_at_end : GcTimes) :
    List Ev × Option GcTimes :=
  let res := gc_times_at_end.foldl (gcStep gc_times_per_node) ([], 0, 0)
  (res.1 ++ [Ev.putValueClusterLevel "node_total_young_gen_gc_time" (JVal.num res.2.1) "ms",
             Ev.putValueClusterLevel "node_total_old_gen_gc_time" (JVal.num res.2.2) "ms"],
   none)

/-- Statement helper: the `(young delta, old delta)` pairs of the end-snapshot
nodes that are also in the start snapshot, in end-snapshot order. -/
def gcMatchedDeltas (start stop : GcTimes) : List (Int × Int) :=
  stop.filterMap (fun p =>
    (alistLookup start p.1).map (fun g0 => (p.2.1 - g0.1, p.2.2 - g0.2)))

/-- Statement helper: the cluster-level value observations of a trace. -/
def clusterValueObs (evs : List Ev) : List Ev :=
  evs.filter (fun e =>
    match e with
    | Ev.putValueClusterLevel _ _ _ => true
    | _ => false)

/-- The events `gcStep` emits for one end-snapshot node. -/
def gcPerNodeEvents (start : GcTimes) (p : String × Int × Int) : List Ev :=
  match alistLookup start p.1 with
  | some g0 => [Ev.putValueNodeLevel p.1 "node_young_gen_gc_time" (JVal.num (p.2.1 - g0.1)) "ms",
                Ev.putValueNodeLevel p.1 "node_old_gen_gc_time" (JVal.num (p.2.2 - g0.2)) "ms"]
  | none => [Ev.warn gcMissingNodeWarning]

theorem gcStep_fold (start stop : GcTimes) (evs : List Ev) (ty tOld : Int) :
    stop.foldl (gcStep start) (evs, ty, tOld)
      = (evs ++ stop.flatMap (gcPerNodeEvents start),
         ty + ((gcMatchedDeltas start stop).map Prod.fst).sum,
         tOld + ((gcMatchedDeltas start stop).map Prod.snd).sum) := by
  induction stop generalizing evs ty tOld with
  | nil => simp [gcMatchedDeltas]
  | cons p rest ih =>
    rw [List.foldl_cons]
    cases hlook : alistLookup start p.1 with
    | none =>
      have hstep : gcStep start (evs, ty, tOld) p = (evs ++ [Ev.warn gcMissingNodeWarning], ty, tOld) := by
        simp [gcStep, hlook]
      rw [hstep, ih]
      simp [gcPerNodeEvents, gcMatchedDeltas, hlook]
    | some g0 =>
      have hstep : gcStep start (evs, ty, tOld) p
          = (evs ++ [Ev.putValueNodeLevel p.1 "node_young_gen_gc_time" (JVal.num (p.2.1 - g0.1)) "ms",
                     Ev.putValueNodeLevel p.1 "node_old_gen_gc_time" (JVal.num (p.2.2 - g0.2)) "ms"],
             ty + (p.2.1 - g0.1), tOld + (p.2.2 - g0.2)) := by
        simp [gcStep, hlook]
      rw [hstep, ih]
      simp [gcPerNodeEvents, gcMatchedDeltas, hlook, Int.add_assoc]

theorem nodeStats_events_eq (start stop : GcTimes) :
    (NodeStats.on_benchmark_stop start stop).1
      = stop.flatMap (gcPerNodeEvents start)
        ++ [Ev.putValueClusterLevel "node_total_young_gen_gc_time"
              (JVal.num (((gcMatchedDeltas start stop).map Prod.fst).sum)) "ms",
            Ev.putValueClusterLevel "node_total_old_gen_gc_time"
              (JVal.num (((gcMatchedDeltas start stop).map Prod.snd).sum)) "ms"] := by
  unfold NodeStats.on_benchmark_stop
  rw [gcStep_fold]
  simp

theorem clusterValueObs_flatMap_perNode (start : GcTimes) (stop : GcTimes) :
    clusterValueObs (stop.flatMap (gcPerNodeEvents start)) = [] := by
  induction stop with
  | nil => rfl
  | cons p rest ih =>
    rw [List.flatMap_cons]
    unfold clusterValueObs at ih ⊢
    rw [List.filter_append, ih]
    cases hlook : alistLookup start p.1 with
    | none => simp [gcPerNodeEvents, hlook]
    | some g0 => simp [gcPerNodeEvents, hlook]

/-- C4. For every start snapshot and every end snapshot, `on_benchmark_stop`
reports, for each node present in both, node-level young and old GC-time
deltas (end minus start); emits no node-level observation for a node absent at
start and logs the warning instead; reports exactly two cluster-level value
observations, the totals of the per-node young and old deltas; and clears the
snapshot state. -/
theorem C4_node_stats_gc_diff (start stop : GcTimes) :
    (∀ n yEnd oEnd, (n, yEnd, oEnd) ∈ stop → ∀ yStart oStart,
        alistLookup start n = some (yStart, oStart) →
        Ev.putValueNodeLevel n "node_young_gen_gc_time" (JVal.num (yEnd - yStart)) "ms"
            ∈ (NodeStats.on_benchmark_stop start stop).1
        ∧ Ev.putValueNodeLevel n "node_old_gen_gc_time" (JVal.num (oEnd - oStart)) "ms"
            ∈ (NodeStats.on_benchmark_stop start stop).1)
    ∧ (∀ n, alistLookup start n = none → ∀ name v u,
        Ev.putValueNodeLevel n name v u ∉ (NodeStats.on_benchmark_stop start stop).1)
    ∧ (∀ n yEnd oEnd, (n, yEnd, oEnd) ∈ stop → alistLookup start n = none →
        Ev.warn gcMissingNodeWarning ∈ (NodeStats.on_benchmark_stop start stop).1)
    ∧ clusterValueObs (NodeStats.on_benchmark_stop start stop).1
        = [Ev.putValueClusterLevel "node_total_young_gen_gc_time"
             (JVal.num (((gcMatchedDeltas start stop).map Prod.fst).sum)) "ms",
           Ev.putValueClusterLevel "node_total_old_gen_gc_time"
             (JVal.num (((gcMatchedDeltas start stop).map Prod.snd).sum)) "ms"]
    ∧ (NodeStats.on_benchmark_stop start stop).2 = none := by
  refine ⟨?_, ?_, ?_, ?_, rfl⟩
  · intro n yEnd oEnd hmem yStart oStart hlook
    rw [nodeStats_events_eq]
    have hpn : gcPerNodeEvents start (n, yEnd, oEnd)
        = [Ev.putValueNodeLevel n "node_young_gen_gc_time" (JVal.num (yEnd - yStart)) "ms",
           Ev.putValueNodeLevel n "node_old_gen_gc_time" (JVal.num (oEnd - oStart)) "ms"] := by
      simp [gcPerNodeEvents, hlook]
    constructor
    · apply List.mem_append_left
      refine List.mem_flatMap.mpr ⟨(n, yEnd, oEnd), hmem, ?_⟩
      rw [hpn]
      exact List.Mem.head _
    · apply List.mem_append_left
      refine List.mem_flatMap.mpr ⟨(n, yEnd, oEnd), hmem, ?_⟩
      rw [hpn]
      exact List.Mem.tail _ (List.Mem.head _)
  · intro n hlook name v u hmem
    rw [nodeStats_events_eq] at hmem
    rcases List.mem_append.mp hmem with hin | hin
    · rcases List.mem_flatMap.mp hin with ⟨p, hp, hev⟩
      cases hlookp : alistLookup start p.1 with
      | none =>
        simp [gcPerNodeEvents, hlookp] at hev
      | some g0 =>
        simp [gcPerNodeEvents, hlookp] at hev
        rcases hev with ⟨hn, h2⟩ | ⟨hn, h2⟩ <;>
          · subst hn
            simp [hlook] at hlookp
    · simp at hin
  · intro n yEnd oEnd hmem hlook
    rw [nodeStats_events_eq]
    apply List.mem_append_left
    refine List.mem_flatMap.mpr ⟨(n, yEnd, oEnd), hmem, ?_⟩
    have hpn : gcPerNodeEvents start (n, yEnd, oEnd) = [Ev.warn gcMissingNodeWarning] := by
      simp [gcPerNodeEvents, hlook]
    rw [hpn]
    exact List.Mem.head _
  · rw [nodeStats_events_eq]
    unfold clusterValueObs
    rw [List.filter_append]
    have h1 := clusterValueObs_flatMap_perNode start stop
    unfold clusterValueObs at h1
    rw [h1]
    rfl

/-- C4 at the spec's concrete example: start snapshot `young=500, old=1000`,
end snapshot `young=1200, old=2500` for the single node `rally0` yield
node-level deltas 700 and 1500 and cluster totals 700 and 1500, and the
snapshot state is cleared. -/
theorem C4_node_stats_gc_diff_witness :
    Ev.putValueNodeLevel "rally0" "node_young_gen_gc_time" (JVal.num 700) "ms"
        ∈ (NodeStats.on_benchmark_stop [("rally0", 500, 1000)] [("rally0", 1200, 2500)]).1
    ∧ Ev.putValueNodeLevel "rally0" "node_old_gen_gc_time" (JVal.num 1500) "ms"
        ∈ (NodeStats.on_benchmark_stop [("rally0", 500, 1000)] [("rally0", 1200, 2500)]).1
    ∧ clusterValueObs (NodeStats.on_benchmark_stop [("rally0", 500, 1000)] [("rally0", 1200, 2500)]).1
        = [Ev.putValueClusterLevel "node_total_young_gen_gc_time" (JVal.num 700) "ms",
           Ev.putValueClusterLevel "node_total_old_gen_gc_time" (JVal.num 1500) "ms"]
    ∧ (NodeStats.on_benchmark_stop [("rally0", 500, 1000)] [("rally0", 1200, 2500)]).2 = none := by
  have h := C4_node_stats_gc_diff [("rally0", 500, 1000)] [("rally0", 1200, 2500)]
  have hp := h.1 "rally0" 1200 2500 (List.Mem.head _) 500 1000 rfl
  exact ⟨hp.1, hp.2, h.2.2.2.1, h.2.2.2.2⟩

/-! DiskIo: the disk I/O diff device. -/

/-- An I/O counters reading (`sysstats.disk_io_counters` or
`sysstats.process_io_counters`): only the byte counters are consumed. -/
structure IoCounters where
  read_bytes : Int
  write_bytes : Int

/-- The mutable state of a `DiskIo` device. `process` is the handle
`sysstats.setup_process_stats(pid)` returned at attach, abstracted to the pid. -/
structure DiskIoState where
  node : Option String
  process : Option Int
  disk_start : Option IoCounters
  process_start : Option IoCounters

/-- `DiskIo.__init__`: every field is `None`. -/
def DiskIo.init : DiskIoState := ⟨none, none, none, none⟩

/-- `DiskIo.attach_to_node`. -/
def DiskIo.attach_to_node (st : DiskIoState) (node_name : String) (pid : Int) : DiskIoState :=
  { st with node := some node_name, process := some pid }

/-- `DiskIo.on_benchmark_start`: guarded by `self.process is not None`; reads
the whole-disk counters and the process-scoped counters (the latter are `None`
on platforms without per-process support) and stores both snapshots. -/
def DiskIo.on_benchmark_start (st : DiskIoState) (disk_now : IoCounters)
    (process_now : Option IoCounters) : DiskIoState × List Ev :=
  match st.process with
  | none => (st, [])
  | some _ =>
    ({ st with disk_start := some disk_now, process_start := process_now },
     [Ev.readDiskIoCounters, Ev.readProcessIoCounters])

/-- `DiskIo.read_bytes`: process-scoped delta when counters were captured at
both ends (both snapshots truthy), whole-disk delta otherwise. `none` models
the `AttributeError` the source would raise had `on_benchmark_start` never
stored a disk snapshot. -/
def DiskIo.read_bytes (st : DiskIoState) (process_end : Option IoCounters)
    (disk_end : IoCounters) : Option Int :=
  match st.process_start, process_end with
  | some ps, some pe => some (pe.read_bytes - ps.read_bytes)
  | _, _ => st.disk_start.map (fun ds => disk_end.read_bytes - ds.read_bytes)

/-- `DiskIo.write_bytes`: same shape as `DiskIo.read_bytes`. -/
def DiskIo.write_bytes (st : DiskIoState) (process_end : Option IoCounters)
    (disk_end : IoCounters) : Option Int :=
  match st.process_start, process_end with
  | some ps, some pe => some (pe.write_bytes - ps.write_bytes)
  | _, _ => st.disk_start.map (fun ds => disk_end.write_bytes - ds.write_bytes)

/-- `DiskIo.on_benchmark_stop`: guarded by `self.process is not None`; reads
both counter sets again and reports the write and the read byte delta at node
level. `none` models the source raising when attach or start was skipped. -/
def DiskIo.on_benchmark_stop (st : DiskIoState) (disk_end : IoCounters)
    (process_end : Option IoCounters) : Option (DiskIoState × List Ev) :=
  match st.process with
  | none => some (st, [])
  | some _ =>
    match st.node, DiskIo.write_bytes st process_end disk_end,
        DiskIo.read_bytes st process_end disk_end with
    | some node_name, some w, some r =>
      some (st, [Ev.readDiskIoCounters, Ev.readProcessIoCounters,
        Ev.putCountNodeLevel node_name "disk_io_write_bytes" (JVal.num w) "byte",
        Ev.putCountNodeLevel node_name "disk_io_read_bytes" (JVal.num r) "byte"])
    | _, _, _ => none

/-- C5. After attach and start (process handle, node and disk snapshot all
set), the deltas reported at benchmark stop are process-scoped end minus
process-scoped start when process counters were captured at both ends, and
whole-disk end minus whole-disk start otherwise. -/
theorem C5_disk_io_delta_fallback (st : DiskIoState) (pid : Int) (node_name : String)
    (d0 : IoCounters) (disk_end : IoCounters) (process_end : Option IoCounters)
    (hproc : st.process = some pid) (hnode : st.node = some node_name)
    (hd0 : st.disk_start = some d0) :
    (∀ p0 pe, st.process_start = some p0 → process_end = some pe →
      DiskIo.on_benchmark_stop st disk_end process_end
        = some (st, [Ev.readDiskIoCounters, Ev.readProcessIoCounters,
            Ev.putCountNodeLevel node_name "disk_io_write_bytes"
              (JVal.num (pe.write_bytes - p0.write_bytes)) "byte",
            Ev.putCountNodeLevel node_name "disk_io_read_bytes"
              (JVal.num (pe.read_bytes - p0.read_bytes)) "byte"]))
    ∧ (st.process_start = none ∨ process_end = none →
      DiskIo.on_benchmark_stop st disk_end process_end
        = some (st, [Ev.readDiskIoCounters, Ev.readProcessIoCounters,
            Ev.putCountNodeLevel node_name "disk_io_write_bytes"
              (JVal.num (disk_end.write_bytes - d0.write_bytes)) "byte",
            Ev.putCountNodeLevel node_name "disk_io_read_bytes"
              (JVal.num (disk_end.read_bytes - d0.read_bytes)) "byte"])) := by
  constructor
  · intro p0 pe hps hpe
    subst hpe
    unfold DiskIo.on_benchmark_stop DiskIo.write_bytes DiskIo.read_bytes
    rw [hproc, hnode, hps]
  · intro hcase
    unfold DiskIo.on_benchmark_stop DiskIo.write_bytes DiskIo.read_bytes
    rcases hcase with hps | hpe
    · rw [hproc, hnode, hps, hd0]
      cases process_end <;> rfl
    · subst hpe
      rw [hproc, hnode, hd0]
      cases hps : st.process_start <;> rfl

/-- C5 at concrete inputs: with process counters at both ends the process
delta is reported (write 55-20=35, read 45-10=35 here), and with a missing
start-side process snapshot the whole-disk delta is reported. -/
theorem C5_disk_io_delta_fallback_witness :
    DiskIo.on_benchmark_stop ⟨some "rally0", some 1234, some ⟨100, 200⟩, some ⟨10, 20⟩⟩
        ⟨1100, 2200⟩ (some ⟨45, 55⟩)
      = some (⟨some "rally0", some 1234, some ⟨100, 200⟩, some ⟨10, 20⟩⟩,
          [Ev.readDiskIoCounters, Ev.readProcessIoCounters,
           Ev.putCountNodeLevel "rally0" "disk_io_write_bytes" (JVal.num 35) "byte",
           Ev.putCountNodeLevel "rally0" "disk_io_read_bytes" (JVal.num 35) "byte"])
    ∧ DiskIo.on_benchmark_stop ⟨some "rally0", some 1234, some ⟨100, 200⟩, none⟩
        ⟨1100, 2200⟩ (some ⟨45, 55⟩)
      = some (⟨some "rally0", some 1234, some ⟨100, 200⟩, none⟩,
          [Ev.readDiskIoCounters, Ev.readProcessIoCounters,
           Ev.putCountNodeLevel "rally0" "disk_io_write_bytes" (JVal.num 2000) "byte",
           Ev.putCountNodeLevel "rally0" "disk_io_read_bytes" (JVal.num 1000) "byte"]) := by
  constructor
  · exact (C5_disk_io_delta_fallback _ 1234 "rally0" ⟨100, 200⟩ _ _ rfl rfl rfl).1
      ⟨10, 20⟩ ⟨45, 55⟩ rfl rfl
  · exact (C5_disk_io_delta_fallback _ 1234 "rally0" ⟨100, 200⟩ _ _ rfl rfl rfl).2
      (Or.inl rfl)

/-- C10. If `attach_to_node` was never called (the process handle is still
`None`), benchmark start and stop are complete no-ops: the state is unchanged,
no counter is read and nothing is written to the metrics store. -/
theorem C10_disk_io_noop_without_attach (st : DiskIoState) (disk : IoCounters)
    (process_now : Option IoCounters) (h : st.process = none) :
    DiskIo.on_benchmark_start st disk process_now = (st, [])
    ∧ DiskIo.on_benchmark_stop st disk process_now = some (st, []) := by
  unfold DiskIo.on_benchmark_start DiskIo.on_benchmark_stop
  rw [h]
  exact ⟨rfl, rfl⟩

/-- C10 at the freshly constructed device state. -/
theorem C10_disk_io_noop_without_attach_witness :
    DiskIo.on_benchmark_start DiskIo.init ⟨7, 8⟩ (some ⟨1, 2⟩) = (DiskIo.init, [])
    ∧ DiskIo.on_benchmark_stop DiskIo.init ⟨7, 8⟩ (some ⟨1, 2⟩) = some (DiskIo.init, []) :=
  C10_disk_io_noop_without_attach DiskIo.init ⟨7, 8⟩ (some ⟨1, 2⟩) rfl

/-! PerfStat: the external-process (perf) device. -/

/-- The mutable state of a `PerfStat` device: the spawned process handle, the
node, and the open log handle (`none` once closed or never opened). -/
structure PerfStatState where
  process : Option Int
  node : Option String
  log : Option String

/-- Whether `self.process.wait(10.0)` returned (also immediately, for a process
that had already exited) or raised `subprocess.TimeoutExpired`. -/
inductive WaitOutcome where
  | terminated
  | timedOut

/-- `PerfStat.detach_from_node`: signal SIGINT, wait with a 10-unit bound,
warn (only) when the wait times out, then close the log handle
unconditionally. `none` models the source raising when detach is called
before attach (no process or no log handle). -/
def PerfStat.detach_from_node (st : PerfStatState) (w : WaitOutcome) :
    Option (List Ev × PerfStatState) :=
  match st.process, st.log with
  | some pid, some _ =>
    some ([Ev.killSigint pid, Ev.waitProcess pid]
        ++ (match w with
            | WaitOutcome.timedOut => [Ev.warn "perf stat did not terminate"]
            | WaitOutcome.terminated => [])
        ++ [Ev.closeLog],
      { st with log := none })
  | _, _ => none

/-- C7. For every attached state and every wait outcome (the process exiting
in time — including having already exited — or the bounded wait timing out),
detach completes without raising: it returns a trace whose only possible
escalation is the timeout warning, the log handle is closed on every path, and
closing the log is the final action. -/
theorem C7_perf_detach_completes_and_closes_log (st : PerfStatState) (pid : Int)
    (log_file : String) (hp : st.process = some pid) (hl : st.log = some log_file)
    (w : WaitOutcome) :
    ∃ evs st2, PerfStat.detach_from_node st w = some (evs, st2)
      ∧ st2.log = none
      ∧ evs.getLast? = some Ev.closeLog
      ∧ (∀ e ∈ evs, e = Ev.killSigint pid ∨ e = Ev.waitProcess pid
          ∨ e = Ev.warn "perf stat did not terminate" ∨ e = Ev.closeLog) := by
  obtain ⟨proc, nd, lg⟩ := st
  simp only at hp hl
  subst hp
  subst hl
  cases w with
  | terminated =>
    refine ⟨_, _, rfl, rfl, rfl, ?_⟩
    intro e he
    simp at he
    rcases he with rfl | rfl | rfl <;> tauto
  | timedOut =>
    refine ⟨_, _, rfl, rfl, rfl, ?_⟩
    intro e he
    simp at he
    rcases he with rfl | rfl | rfl | rfl <;> tauto

/-- C7 at a concrete attached state, for both wait outcomes. -/
theorem C7_perf_detach_completes_and_closes_log_witness :
    (∃ evs st2, PerfStat.detach_from_node ⟨some 42, some "rally0", some "rally0.perf.log"⟩
          WaitOutcome.terminated = some (evs, st2)
      ∧ st2.log = none
      ∧ evs.getLast? = some Ev.closeLog
      ∧ (∀ e ∈ evs, e = Ev.killSigint 42 ∨ e = Ev.waitProcess 42
          ∨ e = Ev.warn "perf stat did not terminate" ∨ e = Ev.closeLog))
    ∧ (∃ evs st2, PerfStat.detach_from_node ⟨some 42, some "rally0", some "rally0.perf.log"⟩
          WaitOutcome.timedOut = some (evs, st2)
      ∧ st2.log = none
      ∧ evs.getLast? = some Ev.closeLog
      ∧ (∀ e ∈ evs, e = Ev.killSigint 42 ∨ e = Ev.waitProcess 42
          ∨ e = Ev.warn "perf stat did not terminate" ∨ e = Ev.closeLog)) :=
  ⟨C7_perf_detach_completes_and_closes_log _ 42 "rally0.perf.log" rfl rfl WaitOutcome.terminated,
   C7_perf_detach_completes_and_closes_log _ 42 "rally0.perf.log" rfl rfl WaitOutcome.timedOut⟩

/-! store_node_attribute_metadata: attribute reconciliation. -/

/-- One node-info record as consumed by `store_node_attribute_metadata`: the
node name and, when the response carries an `"attributes"` mapping, its
key/value pairs in iteration order. -/
structure NodeInfo where
  name : String
  attributes : Option (List (String × String))

/-- Adding one declared value to the per-key value set:
`pseudo_cluster_attributes[attribute_key]` is created empty for a fresh key and
`.add(v)` appends only unseen values (the Python set is modelled as an
insertion-ordered duplicate-free list; only its size and sole member are ever
read). -/
def insertAttrValue (pca : List (String × List String)) (attribute_key v : String) :
    List (String × List String) :=
  match alistLookup pca attribute_key with
  | none => pca ++ [(attribute_key, [v])]
  | some s => if s.contains v then pca else alistSet pca attribute_key (s ++ [v])

/-- The node-level meta-info entry for one `(node name, attribute key, value)`
triple. -/
def attrNodeEvent (tr : String × String × String) : Ev :=
  Ev.addMetaInfo MetaInfoScope.node (some tr.1) tr.2.1 (JVal.str tr.2.2)

/-- The body of the inner loop over `node["attributes"].items()`. -/
def attrInnerStep (node_name : String) (acc2 : List Ev × List (String × List String))
    (kv : String × String) : List Ev × List (String × List String) :=
  (acc2.1 ++ [attrNodeEvent (node_name, "attribute_" ++ kv.1, kv.2)],
   insertAttrValue acc2.2 ("attribute_" ++ kv.1) kv.2)

/-- The body of the outer loop over `nodes_info` (`if "attributes" in node`). -/
def attrOuterStep (acc : List Ev × List (String × List String)) (node : NodeInfo) :
    List Ev × List (String × List String) :=
  match node.attributes with
  | none => acc
  | some attrs => attrs.foldl (attrInnerStep node.name) acc

/-- The final loop over `pseudo_cluster_attributes`: a cluster-level entry for
each key whose value set has exactly one member, holding that member
(`len(v) == 1` and `next(iter(v))`). -/
def clusterAttrEvents (pca : List (String × List String)) : List Ev :=
  pca.foldl (fun evs kv =>
    match kv.2 with
    | [v] => evs ++ [Ev.addMetaInfo MetaInfoScope.cluster none kv.1 (JVal.str v)]
    | _ => evs) []

/-- `store_node_attribute_metadata`. -/
def store_node_attribute_metadata (nodes_info : List NodeInfo) : List Ev :=
  let step1 := nodes_info.foldl attrOuterStep ([], [])
  step1.1 ++ clusterAttrEvents step1.2

/-- Statement helper: the `(node name, prefixed attribute key, value)` triples
in iteration order. -/
def attrTriples (nodes_info : List NodeInfo) : List (String × String × String) :=
  nodes_info.flatMap (fun node =>
    match node.attributes with
    | none => []
    | some attrs => attrs.map (fun kv => (node.name, "attribute_" ++ kv.1, kv.2)))

/-- Statement helper: the values declared under one prefixed attribute key, in
declaration order. -/
def declaredValues (nodes_info : List NodeInfo) (attribute_key : String) : List String :=
  (attrTriples nodes_info).filterMap
    (fun tr => if tr.2.1 = attribute_key then some tr.2.2 else none)

/-- Keeping the first occurrence of each value (insertion order of a set). -/
def dedupInsert (acc : List String) (v : String) : List String :=
  if acc.contains v then acc else acc ++ [v]

/-- The distinct values of a list, first occurrences first. -/
def dedupFirst (vs : List String) : List String :=
  vs.foldl dedupInsert []

/-- Statement helper: the cluster-level meta-info entries carrying one key. -/
def clusterMetaFor (attribute_key : String) (evs : List Ev) : List Ev :=
  evs.filter (fun e =>
    match e with
    | Ev.addMetaInfo MetaInfoScope.cluster _ k _ => k == attribute_key
    | _ => false)

/-- `insertAttrValue` applied to one triple. -/
def insTriple (pca : List (String × List String)) (tr : String × String × String) :
    List (String × List String) :=
  insertAttrValue pca tr.2.1 tr.2.2

/-! Fold decomposition for store_node_attribute_metadata. -/

theorem attrInnerStep_fold (attrs : List (String × String)) (node_name : String)
    (acc : List Ev × List (String × List String)) :
    attrs.foldl (attrInnerStep node_name) acc
      = (acc.1 ++ (attrs.map (fun kv => (node_name, "attribute_" ++ kv.1, kv.2))).map attrNodeEvent,
         (attrs.map (fun kv => (node_name, "attribute_" ++ kv.1, kv.2))).foldl insTriple acc.2) := by
  induction attrs generalizing acc with
  | nil => simp
  | cons kv rest ih =>
    rw [List.foldl_cons, ih]
    simp [attrInnerStep, insTriple]

theorem attrOuterStep_fold (nodes_info : List NodeInfo)
    (acc : List Ev × List (String × List String)) :
    nodes_info.foldl attrOuterStep acc
      = (acc.1 ++ (attrTriples nodes_info).map attrNodeEvent,
         (attrTriples nodes_info).foldl insTriple acc.2) := by
  induction nodes_info generalizing acc with
  | nil => simp [attrTriples]
  | cons node rest ih =>
    rw [List.foldl_cons]
    have htr : attrTriples (node :: rest)
        = (match node.attributes with
           | none => []
           | some attrs => attrs.map (fun kv => (node.name, "attribute_" ++ kv.1, kv.2)))
          ++ attrTriples rest := by
      simp [attrTriples]
    rw [htr]
    cases hattr : node.attributes with
    | none =>
      have hstep : attrOuterStep acc node = acc := by
        simp [attrOuterStep, hattr]
      rw [hstep, ih]
      simp
    | some attrs =>
      have hstep : attrOuterStep acc node = attrs.foldl (attrInnerStep node.name) acc := by
        simp [attrOuterStep, hattr]
      rw [hstep, attrInnerStep_fold, ih]
      simp [List.foldl_append]

/-! Association-list lemmas for the pseudo-cluster-attribute accumulator. -/

theorem alistLookup_append {α : Type} (l1 l2 : List (String × α)) (k : String) :
    alistLookup (l1 ++ l2) k
      = match alistLookup l1 k with
        | some v => some v
        | none => alistLookup l2 k := by
  induction l1 with
  | nil => simp [alistLookup]
  | cons p rest ih =>
    by_cases hp : p.1 = k
    · simp [alistLookup, hp]
    · simp [alistLookup, hp, ih]

theorem alistLookup_none_not_mem_keys {α : Type} (l : List (String × α)) (k : String)
    (h : alistLookup l k = none) : k ∉ l.map Prod.fst := by
  induction l with
  | nil => simp
  | cons p rest ih =>
    by_cases hp : p.1 = k
    · simp [alistLookup, hp] at h
    · simp only [alistLookup, if_neg hp] at h
      simp only [List.map_cons, List.mem_cons]
      rintro (hk | hk)
      · exact hp hk.symm
      · exact ih h hk

theorem alistSet_keys_of_mem {α : Type} (l : List (String × α)) (k : String) (s v : α)
    (h : alistLookup l k = some s) : (alistSet l k v).map Prod.fst = l.map Prod.fst := by
  induction l with
  | nil => simp [alistLookup] at h
  | cons p rest ih =>
    by_cases hp : p.1 = k
    · simp [alistSet, hp]
    · simp only [alistLookup, if_neg hp] at h
      simp [alistSet, hp, ih h]

theorem insertAttrValue_lookup_self (pca : List (String × List String)) (K v : String) :
    alistLookup (insertAttrValue pca K v) K
      = some (dedupInsert ((alistLookup pca K).getD []) v) := by
  unfold insertAttrValue
  cases hlook : alistLookup pca K with
  | none =>
    rw [alistLookup_append, hlook]
    simp [alistLookup, dedupInsert]
  | some s =>
    by_cases hm : v ∈ s
    · simp [hlook, dedupInsert, hm]
    · simp [hlook, dedupInsert, hm, alistLookup_alistSet_self]

theorem insertAttrValue_lookup_ne (pca : List (String × List String)) (K K' v : String)
    (h : K ≠ K') :
    alistLookup (insertAttrValue pca K v) K' = alistLookup pca K' := by
  unfold insertAttrValue
  cases hlook : alistLookup pca K with
  | none =>
    rw [alistLookup_append]
    cases hlook2 : alistLookup pca K' with
    | none => simp [alistLookup, h]
    | some s => simp
  | some s =>
    by_cases hm : v ∈ s
    · simp [hm]
    · simp [hm, alistLookup_alistSet_ne _ _ _ _ h]

/-- Statement helper: the values of the triples carrying one key, in order. -/
def triplesValues (triples : List (String × String × String)) (K : String) : List String :=
  triples.filterMap (fun tr => if tr.2.1 = K then some tr.2.2 else none)

theorem declaredValues_eq_triplesValues (nodes_info : List NodeInfo) (K : String) :
    declaredValues nodes_info K = triplesValues (attrTriples nodes_info) K := rfl

theorem insTriple_fold_lookup (triples : List (String × String × String))
    (pca : List (String × List String)) (K : String) :
    alistLookup (triples.foldl insTriple pca) K
      = (triplesValues triples K).foldl
          (fun so v => some (dedupInsert (so.getD []) v)) (alistLookup pca K) := by
  induction triples generalizing pca with
  | nil => rfl
  | cons tr rest ih =>
    rw [List.foldl_cons, ih]
    by_cases hk : tr.2.1 = K
    · unfold insTriple
      rw [hk, insertAttrValue_lookup_self]
      simp [triplesValues, List.filterMap_cons, hk]
    · unfold insTriple
      rw [insertAttrValue_lookup_ne _ _ _ _ hk]
      simp [triplesValues, List.filterMap_cons, hk]

theorem foldl_dedupStep_some (vs : List String) (acc : List String) :
    vs.foldl (fun so v => some (dedupInsert (so.getD []) v)) (some acc)
      = some (vs.foldl dedupInsert acc) := by
  induction vs generalizing acc with
  | nil => rfl
  | cons v rest ih => simp [List.foldl_cons, ih]

theorem pca_final_lookup (nodes_info : List NodeInfo) (K : String) :
    alistLookup ((attrTriples nodes_info).foldl insTriple []) K
      = match declaredValues nodes_info K with
        | [] => none
        | vs => some (dedupFirst vs) := by
  rw [insTriple_fold_lookup]
  rw [show alistLookup ([] : List (String × List String)) K = none from rfl]
  rw [declaredValues_eq_triplesValues]
  cases hvs : triplesValues (attrTriples nodes_info) K with
  | nil => rfl
  | cons v rest =>
    rw [List.foldl_cons]
    show List.foldl _ (some (dedupInsert [] v)) rest = _
    rw [foldl_dedupStep_some]
    rfl

theorem insertAttrValue_keys_nodup (pca : List (String × List String)) (K v : String)
    (h : (pca.map Prod.fst).Nodup) :
    ((insertAttrValue pca K v).map Prod.fst).Nodup := by
  unfold insertAttrValue
  cases hlook : alistLookup pca K with
  | none =>
    have hnot : K ∉ pca.map Prod.fst := alistLookup_none_not_mem_keys pca K hlook
    rw [List.map_append]
    rw [List.nodup_append]
    refine ⟨h, List.nodup_singleton K, ?_⟩
    intro a ha hb
    simp at hb
    subst hb
    exact hnot ha
  | some s =>
    by_cases hm : v ∈ s
    · simpa [hm] using h
    · show (List.map Prod.fst (if s.contains v = true then pca
          else alistSet pca K (s ++ [v]))).Nodup
      rw [if_neg (by simpa using hm), alistSet_keys_of_mem pca K s _ hlook]
      exact h

theorem foldl_insTriple_keys_nodup (triples : List (String × String × String))
    (pca : List (String × List String)) (h : (pca.map Prod.fst).Nodup) :
    (((triples.foldl insTriple pca)).map Prod.fst).Nodup := by
  induction triples generalizing pca with
  | nil => exact h
  | cons tr rest ih =>
    rw [List.foldl_cons]
    exact ih _ (insertAttrValue_keys_nodup pca tr.2.1 tr.2.2 h)

/-- The cluster-level entry (possibly none) the final loop produces for one
accumulated key. -/
def clusterEntryOf (kv : String × List String) : List Ev :=
  match kv.2 with
  | [v] => [Ev.addMetaInfo MetaInfoScope.cluster none kv.1 (JVal.str v)]
  | _ => []

theorem clusterAttrEvents_eq (pca : List (String × List String)) :
    clusterAttrEvents pca = pca.flatMap clusterEntryOf := by
  unfold clusterAttrEvents
  have hf : (fun (evs : List Ev) (kv : String × List String) =>
        match kv.2 with
        | [v] => evs ++ [Ev.addMetaInfo MetaInfoScope.cluster none kv.1 (JVal.str v)]
        | _ => evs)
      = fun evs kv => evs ++ clusterEntryOf kv := by
    funext evs kv
    cases hvs : kv.2 with
    | nil => simp [clusterEntryOf, hvs]
    | cons v tl =>
      cases tl with
      | nil => simp [clusterEntryOf, hvs]
      | cons w tl2 => simp [clusterEntryOf, hvs]
  rw [hf]
  exact foldl_append_eq_flatMap _ pca []

theorem clusterMetaFor_append (K : String) (a b : List Ev) :
    clusterMetaFor K (a ++ b) = clusterMetaFor K a ++ clusterMetaFor K b := by
  unfold clusterMetaFor
  rw [List.filter_append]

theorem clusterMetaFor_map_nodeEvents (K : String)
    (triples : List (String × String × String)) :
    clusterMetaFor K (triples.map attrNodeEvent) = [] := by
  induction triples with
  | nil => rfl
  | cons tr rest ih =>
    rw [List.map_cons]
    show clusterMetaFor K (attrNodeEvent tr :: rest.map attrNodeEvent) = []
    unfold clusterMetaFor at ih ⊢
    rw [List.filter_cons]
    simp only [attrNodeEvent]
    rw [if_neg (by simp)]
    exact ih

theorem clusterMetaFor_entry_self (K : String) (vs : List String) :
    clusterMetaFor K (clusterEntryOf (K, vs)) = clusterEntryOf (K, vs) := by
  cases vs with
  | nil => rfl
  | cons v tl =>
    cases tl with
    | nil => simp [clusterMetaFor, clusterEntryOf]
    | cons w tl2 => rfl

theorem clusterMetaFor_entry_ne (K k0 : String) (vs : List String) (h : k0 ≠ K) :
    clusterMetaFor K (clusterEntryOf (k0, vs)) = [] := by
  cases vs with
  | nil => rfl
  | cons v tl =>
    cases tl with
    | nil => simp [clusterMetaFor, clusterEntryOf, h]
    | cons w tl2 => rfl

theorem clusterMetaFor_flatMap_no_key (K : String) (pca : List (String × List String))
    (h : K ∉ pca.map Prod.fst) :
    clusterMetaFor K (pca.flatMap clusterEntryOf) = [] := by
  induction pca with
  | nil => rfl
  | cons kv rest ih =>
    rw [List.flatMap_cons, clusterMetaFor_append]
    have hk : kv.1 ≠ K := by
      intro hkk
      exact h (by simp [hkk])
    have hrest : K ∉ rest.map Prod.fst := fun hh => h (by simp [hh])
    rw [ih hrest, List.append_nil]
    obtain ⟨k0, vs0⟩ := kv
    exact clusterMetaFor_entry_ne K k0 vs0 hk

theorem clusterMetaFor_clusterAttrEvents (K : String) (pca : List (String × List String))
    (hnodup : (pca.map Prod.fst).Nodup) :
    clusterMetaFor K (clusterAttrEvents pca)
      = match alistLookup pca K with
        | some [v] => [Ev.addMetaInfo MetaInfoScope.cluster none K (JVal.str v)]
        | _ => [] := by
  rw [clusterAttrEvents_eq]
  induction pca with
  | nil => rfl
  | cons kv rest ih =>
    obtain ⟨k0, vs0⟩ := kv
    rw [List.map_cons] at hnodup
    obtain ⟨hhead, htail⟩ := List.nodup_cons.mp hnodup
    rw [List.flatMap_cons, clusterMetaFor_append]
    by_cases hk : k0 = K
    · subst hk
      have hlook : alistLookup ((k0, vs0) :: rest) k0 = some vs0 := by
        simp [alistLookup]
      rw [hlook, clusterMetaFor_entry_self, clusterMetaFor_flatMap_no_key k0 rest hhead,
        List.append_nil]
      cases vs0 with
      | nil => rfl
      | cons v tl =>
        cases tl with
        | nil => rfl
        | cons w tl2 => rfl
    · have hlook : alistLookup ((k0, vs0) :: rest) K = alistLookup rest K := by
        simp [alistLookup, hk]
      rw [hlook, clusterMetaFor_entry_ne K k0 vs0 hk, List.nil_append]
      exact ih htail

theorem store_node_attribute_metadata_eq (nodes_info : List NodeInfo) :
    store_node_attribute_metadata nodes_info
      = (attrTriples nodes_info).map attrNodeEvent
        ++ clusterAttrEvents ((attrTriples nodes_info).foldl insTriple []) := by
  unfold store_node_attribute_metadata
  rw [attrOuterStep_fold]
  rfl

/-- C6. Every attribute a node declares yields a node-level meta-info entry
for that node; and for every attribute key, the cluster-level entries for that
key are exactly one entry holding the shared value when the set of distinct
declared values is a singleton, and none otherwise (in particular none when
nodes disagree and none when no node declares the key). -/
theorem C6_attribute_reconciliation (nodes_info : List NodeInfo) :
    (∀ node ∈ nodes_info, ∀ attrs, node.attributes = some attrs → ∀ kv ∈ attrs,
        Ev.addMetaInfo MetaInfoScope.node (some node.name) ("attribute_" ++ kv.1)
            (JVal.str kv.2)
          ∈ store_node_attribute_metadata nodes_info)
    ∧ (∀ attribute_key : String,
        clusterMetaFor attribute_key (store_node_attribute_metadata nodes_info)
          = match dedupFirst (declaredValues nodes_info attribute_key) with
            | [v] => [Ev.addMetaInfo MetaInfoScope.cluster none attribute_key (JVal.str v)]
            | _ => []) := by
  constructor
  · intro node hnode attrs hattrs kv hkv
    rw [store_node_attribute_metadata_eq]
    apply List.mem_append_left
    apply List.mem_map.mpr
    refine ⟨(node.name, "attribute_" ++ kv.1, kv.2), ?_, rfl⟩
    unfold attrTriples
    refine List.mem_flatMap.mpr ⟨node, hnode, ?_⟩
    simp only [hattrs]
    exact List.mem_map.mpr ⟨kv, hkv, rfl⟩
  · intro K
    rw [store_node_attribute_metadata_eq, clusterMetaFor_append,
      clusterMetaFor_map_nodeEvents, List.nil_append,
      clusterMetaFor_clusterAttrEvents K _ (foldl_insTriple_keys_nodup _ [] (by simp)),
      pca_final_lookup]
    cases hvs : declaredValues nodes_info K with
    | nil => rfl
    | cons v rest =>
      have hred : (match some (dedupFirst (v :: rest)) with
            | some [w] => [Ev.addMetaInfo MetaInfoScope.cluster none K (JVal.str w)]
            | _ => ([] : List Ev))
          = match dedupFirst (v :: rest) with
            | [w] => [Ev.addMetaInfo MetaInfoScope.cluster none K (JVal.str w)]
            | _ => ([] : List Ev) := by
        cases hd : dedupFirst (v :: rest) with
        | nil => rfl
        | cons w tl =>
          cases tl with
          | nil => rfl
          | cons x tl2 => rfl
      exact hred

/-- C6 at the spec's examples: two nodes agreeing on `az` produce one
cluster-level entry with the shared value; two nodes disagreeing on `group`
produce their two node-level entries and no cluster-level entry. -/
theorem C6_attribute_reconciliation_witness :
    (clusterMetaFor "attribute_az"
        (store_node_attribute_metadata
          [⟨"rally0", some [("az", "us_east1")]⟩, ⟨"rally1", some [("az", "us_east1")]⟩])
      = [Ev.addMetaInfo MetaInfoScope.cluster none "attribute_az" (JVal.str "us_east1")])
    ∧ Ev.addMetaInfo MetaInfoScope.node (some "rally0") "attribute_group" (JVal.str "cold_nodes")
        ∈ store_node_attribute_metadata
            [⟨"rally0", some [("group", "cold_nodes")]⟩, ⟨"rally1", some [("group", "hot_nodes")]⟩]
    ∧ Ev.addMetaInfo MetaInfoScope.node (some "rally1") "attribute_group" (JVal.str "hot_nodes")
        ∈ store_node_attribute_metadata
            [⟨"rally0", some [("group", "cold_nodes")]⟩, ⟨"rally1", some [("group", "hot_nodes")]⟩]
    ∧ clusterMetaFor "attribute_group"
        (store_node_attribute_metadata
          [⟨"rally0", some [("group", "cold_nodes")]⟩, ⟨"rally1", some [("group", "hot_nodes")]⟩])
      = [] := by
  refine ⟨?_, ?_, ?_, ?_⟩
  · exact (C6_attribute_reconciliation
      [⟨"rally0", some [("az", "us_east1")]⟩, ⟨"rally1", some [("az", "us_east1")]⟩]).2
      "attribute_az"
  · exact (C6_attribute_reconciliation _).1 ⟨"rally0", some [("group", "cold_nodes")]⟩
      (List.Mem.head _) [("group", "cold_nodes")] rfl ("group", "cold_nodes") (List.Mem.head _)
  · exact (C6_attribute_reconciliation _).1 ⟨"rally1", some [("group", "hot_nodes")]⟩
      (List.Mem.tail _ (List.Mem.head _)) [("group", "hot_nodes")] rfl
      ("group", "hot_nodes") (List.Mem.head _)
  · exact (C6_attribute_reconciliation
      [⟨"rally0", some [("group", "cold_nodes")]⟩, ⟨"rally1", some [("group", "hot_nodes")]⟩]).2
      "attribute_group"

/-! Nested-path extraction: ExternalEnvironmentInfo.try_store_node_info and
IndexStats.extract_value / IndexStats.add_metrics. -/

/-- Python `value[k]` on a JSON mapping: the binding when the key is present,
`none` for the `KeyError` case (the devices only index mapping levels, so a
leaf is modelled as having no keys). -/
def JVal.getKey : JVal → String → Option JVal
  | JVal.obj fields, k => alistLookup fields k
  | _, _ => none

/-- The walk `for k in path: value = value[k]`, absent as soon as a key is
missing. -/
def walkPath (v : JVal) (path : List String) : Option JVal :=
  path.foldl (fun acc k => acc.bind (fun x => x.getKey k)) (some v)

/-- The warning `try_store_node_info` logs: metric name, node name and the
comma-joined path. -/
def pathWarning (metric_key : String) (node_name : String) (path : List String) : String :=
  "Could not determine metric [" ++ metric_key ++ "] for node [" ++ node_name
    ++ "] at path [" ++ String.intercalate "," path ++ "]."

/-- `ExternalEnvironmentInfo.try_store_node_info`: walk the path from the node
record; on a missing key, log the warning and substitute the literal
`"unknown"`; in both cases write the node-level meta-info entry. `none` models
the uncaught `KeyError` were the record to lack a string `"name"`. -/
def ExternalEnvironmentInfo.try_store_node_info (node : JVal) (metric_key : String)
    (path : List String) : Option (List Ev) :=
  match node.getKey "name" with
  | some (JVal.str node_name) =>
    some (match walkPath node path with
      | some value => [Ev.addMetaInfo MetaInfoScope.node (some node_name) metric_key value]
      | none => [Ev.warn (pathWarning metric_key node_name path),
                 Ev.addMetaInfo MetaInfoScope.node (some node_name) metric_key
                   (JVal.str "unknown")])
  | _ => none

/-- `IndexStats.extract_value`: the walked value, or `None` after a missing
key (the source also logs a warning then). -/
def IndexStats.extract_value (primaries : JVal) (path : List String) : Option JVal :=
  walkPath primaries path

/-- Python truthiness of a JSON value, as tested by `if value:`. -/
def jTruthy : JVal → Bool
  | JVal.num n => n != 0
  | JVal.str s => s != ""
  | JVal.obj fields => !fields.isEmpty

/-- `IndexStats.add_metrics`: a cluster-level value observation when a unit is
given, a count observation otherwise — but only when `if value:` holds, so
both `None` and a present falsy value (such as `0`) are skipped. -/
def IndexStats.add_metrics (value : Option JVal) (metric_key : String)
    (unit : Option String) : List Ev :=
  match value with
  | none => []
  | some v =>
    if jTruthy v then
      match unit with
      | some u => [Ev.putValueClusterLevel metric_key v u]
      | none => [Ev.putCountClusterLevel metric_key v none]
    else []

/-- A stats record whose `segments.count` is present and equal to `0`. -/
def c8Primaries : JVal := JVal.obj [("segments", JVal.obj [("count", JVal.num 0)])]

/-- C8 counterexample. The path `segments.count` is present with value `0`,
yet `add_metrics` emits no observation: a present falsy value is dropped
exactly like an absent one, against the claim that every present value is
reported. -/
theorem C8_counterexample_present_zero :
    IndexStats.extract_value c8Primaries ["segments", "count"] = some (JVal.num 0)
    ∧ IndexStats.add_metrics (IndexStats.extract_value c8Primaries ["segments", "count"])
        "segments_count" none = [] := by
  constructor <;> rfl

/-- C8 as amended. The metadata device substitutes the literal `"unknown"` on
any missing key and still writes the node-level entry (reporting the walked
value verbatim when the path is present); the index-statistics device yields
absent on a missing key and emits no observation for that path; and it reports
a present value as a cluster-level value (with unit) or count observation only
when the value is truthy — a present falsy value (such as `0`) produces no
observation, like an absent one. -/
theorem C8_nested_path_extraction (node primaries : JVal) (node_name : String)
    (metric_key : String) (path : List String) (unit : Option String) :
    (node.getKey "name" = some (JVal.str node_name) → walkPath node path = none →
        ExternalEnvironmentInfo.try_store_node_info node metric_key path
          = some [Ev.warn (pathWarning metric_key node_name path),
                  Ev.addMetaInfo MetaInfoScope.node (some node_name) metric_key
                    (JVal.str "unknown")])
    ∧ (node.getKey "name" = some (JVal.str node_name) →
        ∀ value, walkPath node path = some value →
        ExternalEnvironmentInfo.try_store_node_info node metric_key path
          = some [Ev.addMetaInfo MetaInfoScope.node (some node_name) metric_key value])
    ∧ (IndexStats.extract_value primaries path = none →
        IndexStats.add_metrics (IndexStats.extract_value primaries path) metric_key unit = [])
    ∧ (∀ value, IndexStats.extract_value primaries path = some value → jTruthy value = true →
        IndexStats.add_metrics (IndexStats.extract_value primaries path) metric_key unit
          = match unit with
            | some u => [Ev.putValueClusterLevel metric_key value u]
            | none => [Ev.putCountClusterLevel metric_key value none])
    ∧ (∀ value, IndexStats.extract_value primaries path = some value → jTruthy value = false →
        IndexStats.add_metrics (IndexStats.extract_value primaries path) metric_key unit
          = []) := by
  refine ⟨?_, ?_, ?_, ?_, ?_⟩
  · intro hname hwalk
    unfold ExternalEnvironmentInfo.try_store_node_info
    rw [hname, hwalk]
  · intro hname value hwalk
    unfold ExternalEnvironmentInfo.try_store_node_info
    rw [hname, hwalk]
  · intro habs
    unfold IndexStats.add_metrics
    rw [habs]
  · intro value hval htruthy
    unfold IndexStats.add_metrics
    rw [hval]
    cases unit <;> simp [htruthy]
  · intro value hval hfalsy
    unfold IndexStats.add_metrics
    rw [hval]
    cases unit <;> simp [hfalsy]

/-- C8 at concrete inputs: a node record lacking `os.version` yields the
warning plus an `"unknown"` node-level entry while a present `os.name` is
stored verbatim; a missing stats path yields no observation; a present
truthy `segments.count` yields the count observation. -/
theorem C8_nested_path_extraction_witness :
    ExternalEnvironmentInfo.try_store_node_info
        (JVal.obj [("name", JVal.str "rally0"), ("os", JVal.obj [("name", JVal.str "Mac OS X")])])
        "os_version" ["os", "version"]
      = some [Ev.warn (pathWarning "os_version" "rally0" ["os", "version"]),
              Ev.addMetaInfo MetaInfoScope.node (some "rally0") "os_version"
                (JVal.str "unknown")]
    ∧ ExternalEnvironmentInfo.try_store_node_info
        (JVal.obj [("name", JVal.str "rally0"), ("os", JVal.obj [("name", JVal.str "Mac OS X")])])
        "os_name" ["os", "name"]
      = some [Ev.addMetaInfo MetaInfoScope.node (some "rally0") "os_name"
                (JVal.str "Mac OS X")]
    ∧ IndexStats.add_metrics
        (IndexStats.extract_value (JVal.obj [("segments", JVal.obj [("count", JVal.num 5)])])
          ["segments", "memory_in_bytes"]) "segments_memory_in_bytes" (some "byte")
      = []
    ∧ IndexStats.add_metrics
        (IndexStats.extract_value (JVal.obj [("segments", JVal.obj [("count", JVal.num 5)])])
          ["segments", "count"]) "segments_count" none
      = [Ev.putCountClusterLevel "segments_count" (JVal.num 5) none] := by
  refine ⟨?_, ?_, ?_, ?_⟩
  · exact (C8_nested_path_extraction
      (JVal.obj [("name", JVal.str "rally0"), ("os", JVal.obj [("name", JVal.str "Mac OS X")])])
      (JVal.obj []) "rally0" "os_version" ["os", "version"] none).1 rfl rfl
  · exact (C8_nested_path_extraction
      (JVal.obj [("name", JVal.str "rally0"), ("os", JVal.obj [("name", JVal.str "Mac OS X")])])
      (JVal.obj []) "rally0" "os_name" ["os", "name"] none).2.1 rfl (JVal.str "Mac OS X") rfl
  · exact (C8_nested_path_extraction (JVal.obj [])
      (JVal.obj [("segments", JVal.obj [("count", JVal.num 5)])]) "rally0"
      "segments_memory_in_bytes" ["segments", "memory_in_bytes"] (some "byte")).2.2.1 rfl
  · exact (C8_nested_path_extraction (JVal.obj [])
      (JVal.obj [("segments", JVal.obj [("count", JVal.num 5)])]) "rally0"
      "segments_count" ["segments", "count"] none).2.2.2.1 (JVal.num 5) rfl rfl

/-! IndexSize: the index-size device. -/

/-- `IndexSize.detach_from_cluster`, given the optional configuration value
`provisioning.local.data.paths` (looked up non-mandatorily) and the
filesystem's recursive-size function. With no configured value nothing at all
happens; otherwise the first path is measured, reported as one cluster-level
byte count, and a diagnostic `find` listing is run. `none` models the
`IndexError` of `data_paths[0]` on an empty configured list. -/
def IndexSize.detach_from_cluster (data_paths : Option (List String))
    (get_size : String → Int) : Option (List Ev) :=
  match data_paths with
  | none => some []
  | some [] => none
  | some (data_path :: _) =>
    some [Ev.fsGetSize data_path,
          Ev.putCountClusterLevel "final_index_size_bytes" (JVal.num (get_size data_path))
            (some "byte"),
          Ev.runSubprocess ("find " ++ data_path ++ " -ls")]

/-- `IndexSize` overrides no other hook: benchmark start falls back to the
base class' `pass`. -/
def IndexSize.on_benchmark_start : List Ev := []

/-- `IndexSize` overrides no other hook: benchmark stop falls back to the base
class' `pass`. -/
def IndexSize.on_benchmark_stop : List Ev := []

/-- C9. Without a configured data path the whole start-stop-detach sequence of
the index-size device performs no metrics-sink call and no filesystem or
subprocess call; with a configured non-empty path list, detach reports exactly
one cluster-level byte count, the recursive size of the first path, next to
the one size computation and the diagnostic listing. -/
theorem C9_index_size_noop_or_single_report (get_size : String → Int) :
    (IndexSize.on_benchmark_start = []
      ∧ IndexSize.on_benchmark_stop = []
      ∧ IndexSize.detach_from_cluster none get_size = some [])
    ∧ (∀ data_path rest,
        IndexSize.detach_from_cluster (some (data_path :: rest)) get_size
          = some [Ev.fsGetSize data_path,
                  Ev.putCountClusterLevel "final_index_size_bytes"
                    (JVal.num (get_size data_path)) (some "byte"),
                  Ev.runSubprocess ("find " ++ data_path ++ " -ls")]) :=
  ⟨⟨rfl, rfl, rfl⟩, fun _ _ => rfl⟩

/-- C9 at concrete inputs (the unit tests' configuration). -/
theorem C9_index_size_noop_or_single_report_witness :
    IndexSize.detach_from_cluster none (fun _ => 2048) = some []
    ∧ IndexSize.detach_from_cluster (some ["/var/elasticsearch/data"]) (fun _ => 2048)
      = some [Ev.fsGetSize "/var/elasticsearch/data",
              Ev.putCountClusterLevel "final_index_size_bytes" (JVal.num 2048) (some "byte"),
              Ev.runSubprocess "find /var/elasticsearch/data -ls"] :=
  ⟨(C9_index_size_noop_or_single_report (fun _ => 2048)).1.2.2,
   (C9_index_size_noop_or_single_report (fun _ => 2048)).2 "/var/elasticsearch/data" []⟩
